import Mathlib

/-!
Verification of the card-matcher game engine (`src/App.tsx`).

The source is a single React component.  Its game logic is embedded here as
pure Lean functions: React state becomes an explicit `GameState` record, every
call to `Math.random()` becomes an explicit numeric parameter or a
`Nat → Nat` draw function, `setTimeout` callbacks become explicit
state-transforming functions together with the scheduled delay, and the
reactive `useEffect` blocks become functions applied after each transition.
-/

namespace CardMatcher

/-- Character categories (`type CharacterType` in the source). -/
inductive CharacterType where
  | animal
  | superhero
  | robot
  | mythical
deriving DecidableEq

/-- Card suits (`type CardSuit` in the source). -/
inductive CardSuit where
  | hearts
  | diamonds
  | clubs
  | spades
deriving DecidableEq

/-- A card (`interface Character` in the source).  The source field `type`
is called `ctype` here because `type` is reserved in Lean. -/
structure Character where
  id : Nat
  name : String
  ctype : CharacterType
  matched : Bool
  flipped : Bool
  imageUrl : String
  suit : CardSuit
  color : String
deriving DecidableEq

instance : Inhabited Character :=
  ⟨{ id := 0, name := "", ctype := CharacterType.animal, matched := false,
     flipped := false, imageUrl := "", suit := CardSuit.hearts, color := "" }⟩

/-- The spec's tri-state view of a card, derived from the source's two
booleans: `Matched` when `matched`, else `FaceUp` when `flipped`, else
`FaceDown`. -/
inductive CardState where
  | FaceDown
  | FaceUp
  | Matched
deriving DecidableEq

/-- Tri-state of a card, derived from the `matched` and `flipped` booleans. -/
def Character.state (c : Character) : CardState :=
  if c.matched then CardState.Matched
  else if c.flipped then CardState.FaceUp
  else CardState.FaceDown

/-- A difficulty level (`interface DifficultyLevel` in the source). -/
structure DifficultyLevel where
  name : String
  pairs : Nat
  timeLimit : Nat
deriving DecidableEq

/-- The power-up counters (the `powerUps` state object). -/
structure PowerUps where
  shuffle : Nat
  hint : Nat
  slowTime : Nat
deriving DecidableEq

/-- `type PowerUpType` in the source. -/
inductive PowerUpType where
  | shuffle
  | hint
  | slowTime
deriving DecidableEq

/-- A character template: the `characterData` entries
(`Omit<Character, 'id' | 'matched' | 'flipped' | 'suit' | 'color'>`). -/
structure CharTemplate where
  name : String
  ctype : CharacterType
  imageUrl : String
deriving DecidableEq

/-- The `characterData` template pool from the source, in order. -/
def characterData : List CharTemplate :=
  [ { name := "Lion", ctype := CharacterType.animal, imageUrl := "🦁" },
    { name := "Elephant", ctype := CharacterType.animal, imageUrl := "🐘" },
    { name := "Giraffe", ctype := CharacterType.animal, imageUrl := "🦒" },
    { name := "Batman", ctype := CharacterType.superhero, imageUrl := "🦇" },
    { name := "Spider", ctype := CharacterType.superhero, imageUrl := "🕷️" },
    { name := "Robot", ctype := CharacterType.robot, imageUrl := "🤖" },
    { name := "Alien", ctype := CharacterType.robot, imageUrl := "👽" },
    { name := "Dragon", ctype := CharacterType.mythical, imageUrl := "🐉" },
    { name := "Unicorn", ctype := CharacterType.mythical, imageUrl := "🦄" },
    { name := "Phoenix", ctype := CharacterType.mythical, imageUrl := "🔥" },
    { name := "Mermaid", ctype := CharacterType.mythical, imageUrl := "🧜‍♀️" },
    { name := "Wizard", ctype := CharacterType.mythical, imageUrl := "🧙‍♂️" },
    { name := "Ghost", ctype := CharacterType.mythical, imageUrl := "👻" },
    { name := "Vampire", ctype := CharacterType.mythical, imageUrl := "🧛" },
    { name := "Zombie", ctype := CharacterType.mythical, imageUrl := "🧟" },
    { name := "Werewolf", ctype := CharacterType.mythical, imageUrl := "🐺" },
    { name := "Fairy", ctype := CharacterType.mythical, imageUrl := "🧚" },
    { name := "Ogre", ctype := CharacterType.mythical, imageUrl := "👹" } ]

/-- The `cardSuits` array from the source. -/
def cardSuits : List CardSuit :=
  [CardSuit.hearts, CardSuit.diamonds, CardSuit.clubs, CardSuit.spades]

/-- The four `difficultyLevels` from the source (icon and CSS color omitted,
they are presentation-only). -/
def difficultyLevels : List DifficultyLevel :=
  [ { name := "Normal", pairs := 6, timeLimit := 60 },
    { name := "Hard", pairs := 9, timeLimit := 90 },
    { name := "Expert", pairs := 12, timeLimit := 120 },
    { name := "Insane", pairs := 18, timeLimit := 180 } ]

/-- The whole React state of the component as one record. -/
structure GameState where
  difficulty : DifficultyLevel
  characters : List Character
  flippedCards : List Nat
  matchedPairs : Nat
  timeLeft : Nat
  score : Nat
  gameStarted : Bool
  gameOver : Bool
  gameWon : Bool
  powerUps : PowerUps
  hintCard : Option Nat
deriving DecidableEq

/-- In-place update of a list element, modelling `arr[i].field = v` style
mutation of a copied array; out-of-range indices leave the list unchanged
(such indices never occur on the executed paths). -/
def updAt (l : List Character) (i : Nat) (f : Character → Character) : List Character :=
  l.set i (f (l.getD i default))

/-- `Math.floor(Math.random() * cardSuits.length)` picks an index in
`[0, 3]`; the draw is supplied as `suitOf idx` and reduced `% 4`. -/
def suitFor (suitOf : Nat → Nat) (idx : Nat) : CardSuit :=
  cardSuits.getD (suitOf idx % cardSuits.length) CardSuit.hearts

/-- Color derivation from the suit, exactly as in `initializeGame`. -/
def colorFor (s : CardSuit) : String :=
  if s = CardSuit.hearts ∨ s = CardSuit.diamonds then "red" else "black"

/-- The pair-building `forEach` of `initializeGame`: for the template at
position `idx`, draw one suit, derive the color, and emit two cards with ids
`idx * 2` and `idx * 2 + 1`, both unmatched and unflipped. -/
def mkDeckAux (suitOf : Nat → Nat) : Nat → List CharTemplate → List Character
  | _, [] => []
  | idx, ch :: rest =>
    let suit := suitFor suitOf idx
    let color := colorFor suit
    { id := idx * 2, name := ch.name, ctype := ch.ctype, matched := false,
      flipped := false, imageUrl := ch.imageUrl, suit := suit, color := color } ::
    { id := idx * 2 + 1, name := ch.name, ctype := ch.ctype, matched := false,
      flipped := false, imageUrl := ch.imageUrl, suit := suit, color := color } ::
    mkDeckAux suitOf (idx + 1) rest

/-- The deck built by `initializeGame` before the final shuffle: `order` is
the result of the selection sort over `characterData` (an arbitrary
permutation of the pool, since `sort` with any comparator permutes), then
`.slice(0, pairs)` keeps the first `pairs` templates. -/
def initDeck (order : List CharTemplate) (pairs : Nat) (suitOf : Nat → Nat) : List Character :=
  mkDeckAux suitOf 0 (order.take pairs)

/-- `initializeGame` contains no `throw` and no error path: every execution
returns a deck normally, so the embedding is always `Except.ok`.  (The source
silently truncates when `pairs` exceeds the pool via `.slice(0, pairs)`.) -/
def initGameResult (order : List CharTemplate) (pairs : Nat) (suitOf : Nat → Nat) :
    Except String (List Character) :=
  Except.ok (initDeck order pairs suitOf)

/-- The state reset performed by `initializeGame` (the deck argument stands
for the freshly generated, shuffled deck). -/
def initGame (s : GameState) (deck : List Character) : GameState :=
  { s with
    characters := deck
    flippedCards := []
    matchedPairs := 0
    timeLeft := s.difficulty.timeLimit
    score := 0
    gameOver := false
    gameWon := false
    powerUps := { shuffle := 1, hint := 2, slowTime := 1 }
    hintCard := none }

/-- `handleCardFlip`.  The guard evaluates left to right:
`flippedCards.length === 2` returns before touching the deck; otherwise
`characters[id].flipped` is read, which throws a `TypeError` when `id` is out
of range (`characters[id]` is `undefined`); then `matched` and `gameOver` are
checked.  A passing guard sets `flipped` and appends `id` to `flippedCards`. -/
def handleCardFlip (s : GameState) (id : Nat) : Except String GameState :=
  if s.flippedCards.length = 2 then Except.ok s
  else
    match s.characters.get? id with
    | none => Except.error "TypeError"
    | some c =>
      if c.flipped = true ∨ c.matched = true ∨ s.gameOver = true then Except.ok s
      else
        Except.ok { s with
          characters := updAt s.characters id (fun ch => { ch with flipped := true }),
          flippedCards := s.flippedCards ++ [id] }

/-- The outcome of the match-checking `useEffect`: nothing (fewer than two
face-up ids), an immediate match resolution, or a scheduled mismatch
reversion (`setTimeout(…, 1000)`), which captures the current `characters`
array and the two indices. -/
inductive ResolveAction where
  | nothing
  | matchedNow (s : GameState)
  | mismatchScheduled (delayMs : Nat) (first second : Nat)
      (snapshot : List Character) (s : GameState)

/-- The match-checking `useEffect`: when exactly two ids are face-up, compare
their names.  Equal names: mark both matched, `score += 10`,
`matchedPairs += 1`, `timeLeft += 5`, clear `flippedCards` — all immediately.
Different names: schedule the reversion after 1000 ms; nothing changes now. -/
def checkMatches (s : GameState) : ResolveAction :=
  match s.flippedCards with
  | [first, second] =>
    if (s.characters.getD first default).name = (s.characters.getD second default).name then
      ResolveAction.matchedNow
        { s with
          characters := updAt (updAt s.characters first (fun c => { c with matched := true }))
            second (fun c => { c with matched := true }),
          score := s.score + 10,
          matchedPairs := s.matchedPairs + 1,
          timeLeft := s.timeLeft + 5,
          flippedCards := [] }
    else
      ResolveAction.mismatchScheduled 1000 first second s.characters s
  | _ => ResolveAction.nothing

/-- The immediate effect of the match-checking `useEffect` on the state
(the mismatch branch changes nothing until its timeout fires). -/
def applyResolve (s : GameState) : GameState :=
  match checkMatches s with
  | ResolveAction.matchedNow s₁ => s₁
  | _ => s

/-- The mismatch `setTimeout` callback.  It closes over the `characters`
array captured when it was scheduled (`snapshot`) and over the two indices:
when it fires it unflips both indices in the snapshot and installs that
array as the current deck, clears `flippedCards`, and sets
`timeLeft = max(1, timeLeft - 2)` on the state current at firing time.
It performs no session check whatsoever. -/
def mismatchFire (snapshot : List Character) (first second : Nat) (s : GameState) : GameState :=
  { s with
    characters := updAt (updAt snapshot first (fun c => { c with flipped := false }))
      second (fun c => { c with flipped := false }),
    flippedCards := [],
    timeLeft := max 1 (s.timeLeft - 2) }

/-- The win-checking `useEffect`: whenever `gameStarted` and
`matchedPairs === difficulty.pairs`, set `gameWon` and `gameOver`. -/
def checkWin (s : GameState) : GameState :=
  if s.gameStarted = true ∧ s.matchedPairs = s.difficulty.pairs then
    { s with gameWon := true, gameOver := true }
  else s

/-- One firing of the countdown `setInterval`.  The interval only exists
while `gameStarted && !gameOver` (the effect returns early otherwise and its
cleanup clears the interval), so outside that window a tick changes nothing.
At `timeLeft <= 1` the tick clears the interval, sets `gameOver`, and leaves
`timeLeft = 0`; otherwise it decrements. -/
def timerTick (s : GameState) : GameState :=
  if s.gameStarted = true ∧ s.gameOver = false then
    if s.timeLeft ≤ 1 then { s with timeLeft := 0, gameOver := true }
    else { s with timeLeft := s.timeLeft - 1 }
  else s

/-- The shuffle power-up's index selection:
`map((char, index) => char.matched ? -1 : index).filter(index => index !== -1)`
keeps exactly the positions of non-matched cards (flipped or not). -/
def unmatchedIndices (chars : List Character) : List Nat :=
  (List.range chars.length).filter (fun i => (chars.getD i default).matched = false)

/-- The three-statement swap of the Fisher-Yates body:
`temp = arr[p]; arr[p] = arr[q]; arr[q] = temp`. -/
def swapIdx (arr : List Character) (p q : Nat) : List Character :=
  let temp := arr.getD p default
  (arr.set p (arr.getD q default)).set q temp

/-- The Fisher-Yates loop of the shuffle power-up: for `i` from `n` down to
`1`, draw `j = Math.floor(Math.random() * (i + 1))` (embedded as
`rand i % (i + 1)`, matching the codomain `[0, i]`) and swap the deck
positions `idxs[i]` and `idxs[j]`. -/
def fyAux (rand : Nat → Nat) (idxs : List Nat) : Nat → List Character → List Character
  | 0, arr => arr
  | i + 1, arr =>
    let j := rand (i + 1) % (i + 2)
    fyAux rand idxs i (swapIdx arr (idxs.getD (i + 1) 0) (idxs.getD j 0))

/-- The shuffle power-up body: Fisher-Yates over the positions of all
non-matched cards. -/
def shufflePowerUp (rand : Nat → Nat) (chars : List Character) : List Character :=
  let idxs := unmatchedIndices chars
  fyAux rand idxs (idxs.length - 1) chars

/-- Insertion into the hint `characterMap` (a JS `Map`, which preserves
insertion order): append the index under the card's name, creating the entry
at the end on first occurrence. -/
def insertIdx (m : List (String × List Nat)) (n : String) (idx : Nat) :
    List (String × List Nat) :=
  match m with
  | [] => [(n, [idx])]
  | (n₁, l) :: rest =>
    if n₁ = n then (n₁, l ++ [idx]) :: rest else (n₁, l) :: insertIdx rest n idx

/-- The `characters.forEach` of the hint power-up: walk the deck with its
index, collecting the indices of every non-matched card grouped by name. -/
def groupUnmatchedAux : Nat → List Character → List (String × List Nat) →
    List (String × List Nat)
  | _, [], m => m
  | k, c :: rest, m =>
    groupUnmatchedAux (k + 1) rest (if c.matched = true then m else insertIdx m c.name k)

/-- The hint power-up's `characterMap` contents in insertion order. -/
def groupUnmatched (chars : List Character) : List (String × List Nat) :=
  groupUnmatchedAux 0 chars []

/-- The names whose (non-matched) index list has length exactly 2, in map
order — the source's `unmatchedPairs`. -/
def unmatchedPairsOf (chars : List Character) : List (List Nat) :=
  (groupUnmatched chars).filterMap (fun e => if e.2.length = 2 then some e.2 else none)

/-- The hint power-up's card selection: a random qualifying pair
(`Math.floor(Math.random() * unmatchedPairs.length)`, embedded as
`rPair % length`), then one of its two cards (`Math.floor(Math.random()*2)`,
embedded as `rCard % 2`); `none` when no pair qualifies. -/
def hintSelect (chars : List Character) (rPair rCard : Nat) : Option Nat :=
  let ps := unmatchedPairsOf chars
  if ps.length = 0 then none
  else some ((ps.getD (rPair % ps.length) []).getD (rCard % 2) 0)

/-- The hint-clearing `setTimeout(…, 3000)` callback: unconditionally set
`hintCard` to `null`; no session check. -/
def hintFire (s : GameState) : GameState :=
  { s with hintCard := none }

/-- `powerUps[type]` lookup. -/
def powerCount (p : PowerUps) : PowerUpType → Nat
  | PowerUpType.shuffle => p.shuffle
  | PowerUpType.hint => p.hint
  | PowerUpType.slowTime => p.slowTime

/-- `setPowerUps({...powerUps, [type]: powerUps[type] - 1})`. -/
def decPower (p : PowerUps) : PowerUpType → PowerUps
  | PowerUpType.shuffle => { p with shuffle := p.shuffle - 1 }
  | PowerUpType.hint => { p with hint := p.hint - 1 }
  | PowerUpType.slowTime => { p with slowTime := p.slowTime - 1 }

/-- `usePowerUp`: guarded by `powerUps[type] <= 0 || gameOver || !gameStarted`;
then the counter is decremented and the selected effect applied.  The hint
branch leaves `hintCard` untouched when no pair qualifies (the counter is
still spent). -/
def usePowerUp (rand : Nat → Nat) (rPair rCard : Nat) (t : PowerUpType)
    (s : GameState) : GameState :=
  if powerCount s.powerUps t ≤ 0 ∨ s.gameOver = true ∨ s.gameStarted = false then s
  else
    let s₁ := { s with powerUps := decPower s.powerUps t }
    match t with
    | PowerUpType.shuffle => { s₁ with characters := shufflePowerUp rand s₁.characters }
    | PowerUpType.hint =>
      match hintSelect s₁.characters rPair rCard with
      | some i => { s₁ with hintCard := some i }
      | none => s₁
    | PowerUpType.slowTime => { s₁ with timeLeft := s₁.timeLeft + 10 }

/-! ## The event-driven session machine

Every state change in the source is triggered by a user intent, a timer
firing, or a scheduled callback.  `Event` enumerates these triggers; each
carries the random draws its handler consumes.  After each raw transition the
two reactive `useEffect` blocks run, in declaration order: the match-checking
effect (`applyResolve`) and then the win-checking effect (`checkWin`). -/

/-- The triggers of state transitions.  `startGame` and `restart` carry the
freshly generated shuffled deck (the output of `initializeGame`'s generation
pipeline); `mismatchTimeout` carries the data its `setTimeout` closure
captured. -/
inductive Event where
  | flip (id : Nat)
  | tick
  | mismatchTimeout (snapshot : List Character) (first second : Nat)
  | hintTimeout
  | power (t : PowerUpType) (rand : Nat → Nat) (rPair rCard : Nat)
  | restart (deck : List Character)
  | startGame (deck : List Character)
  | menu
  | setDiff (d : DifficultyLevel)

/-- The direct effect of each trigger, before the reactive effects run.
A flip whose deck access throws leaves the state unchanged (a crashed app
performs no transition at all, so this only adds stutter steps).
`restart` is the "Play Again" button (`initializeGame()` alone), `startGame`
is the start button (`initializeGame()` then `setGameStarted(true)`), `menu`
is the "Main Menu" button (`setGameStarted(false)` alone), and `setDiff` is a
difficulty button, which only exists on the menu screen. -/
def rawStep : Event → GameState → GameState
  | Event.flip id, s =>
    match handleCardFlip s id with
    | Except.ok s₁ => s₁
    | Except.error _ => s
  | Event.tick, s => timerTick s
  | Event.mismatchTimeout snap a b, s => mismatchFire snap a b s
  | Event.hintTimeout, s => hintFire s
  | Event.power t rand rPair rCard, s => usePowerUp rand rPair rCard t s
  | Event.restart deck, s => initGame s deck
  | Event.startGame deck, s => { initGame s deck with gameStarted := true }
  | Event.menu, s => { s with gameStarted := false }
  | Event.setDiff d, s => if s.gameStarted = true then s else { s with difficulty := d }

/-- One complete transition: the trigger's effect followed by the reactive
match-checking and win-checking effects. -/
def step (e : Event) (s : GameState) : GameState :=
  checkWin (applyResolve (rawStep e s))

/-- The component's initial state: menu screen, empty deck, default
difficulty `d`. -/
def initialState (d : DifficultyLevel) : GameState :=
  { difficulty := d
    characters := []
    flippedCards := []
    matchedPairs := 0
    timeLeft := d.timeLimit
    score := 0
    gameStarted := false
    gameOver := false
    gameWon := false
    powerUps := { shuffle := 1, hint := 2, slowTime := 1 }
    hintCard := none }

/-- States reachable through the machine from the initial menu state. -/
inductive Reachable (d : DifficultyLevel) : GameState → Prop
  | init : Reachable d (initialState d)
  | next (e : Event) {s : GameState} : Reachable d s → Reachable d (step e s)

/-! ## The random-comparator sort of the initial deck randomization

The source randomizes both the template selection and the final deck with
`.sort(() => Math.random() - 0.5)`.  `Array.prototype.sort` with an
inconsistent comparator still returns some permutation of its input, which is
how the deck-shape claims quantify over it.  For the distribution claim the
comparator sort is embedded as the standard analysis model: a deterministic
insertion sort in which each comparison consumes one fair random boolean
(`Math.random() - 0.5 < 0`). -/

/-- Insert `x` into `l`, consuming one random boolean per comparison: `true`
means the comparator returned a negative value (`x` stays before the probed
element). -/
def insertRand {α : Type} : List Bool → α → List α → List α × List Bool
  | bits, x, [] => ([x], bits)
  | [], x, l => (x :: l, [])
  | b :: rest, x, y :: ys =>
    if b then (x :: y :: ys, rest)
    else
      let r := insertRand rest x ys
      (y :: r.1, r.2)

/-- Insertion sort threading the stream of random comparator outcomes. -/
def sortRandAux {α : Type} : List α → List Bool → List α × List Bool
  | [], bits => ([], bits)
  | x :: xs, bits =>
    let r := sortRandAux xs bits
    insertRand r.2 x r.1

/-- The random-comparator shuffle `arr.sort(() => Math.random() - 0.5)`
under the insertion-sort model of the comparator sort. -/
def sortRand {α : Type} (bits : List Bool) (l : List α) : List α :=
  (sortRandAux l bits).1

/-- All `2^3` equally likely streams of three comparator outcomes. -/
def bits3 : List (List Bool) :=
  [ [false, false, false], [false, false, true], [false, true, false],
    [false, true, true], [true, false, false], [true, false, true],
    [true, true, false], [true, true, true] ]

/-- The identity suit draw, used as a concrete random source in witnesses. -/
def idSuit : Nat → Nat := fun i => i

/-- The constantly-zero random draw, used in counterexamples. -/
def randZero : Nat → Nat := fun _ => 0

/-! ## Concrete fixtures for witnesses and counterexamples -/

/-- The default difficulty (`difficultyLevels[0]`). -/
def dNormal : DifficultyLevel := { name := "Normal", pairs := 6, timeLimit := 60 }

/-- A face-down test card. -/
def cardA : Character :=
  { id := 0, name := "A", ctype := CharacterType.animal, matched := false,
    flipped := false, imageUrl := "", suit := CardSuit.hearts, color := "red" }

/-- A second face-down test card. -/
def cardB : Character := { cardA with id := 1, name := "B" }

/-- A third face-down test card. -/
def cardC : Character := { cardA with id := 2, name := "C" }

/-- A three-card all-face-down deck for distribution counting. -/
def deck3 : List Character := [cardA, cardB, cardC]

/-- A two-argument random source for the Fisher-Yates loop on three cards:
draw `a` at `i = 2` and `b` at `i = 1`. -/
def randOf (a b : Nat) : Nat → Nat := fun i => if i = 2 then a else b

/-- The six equally likely Fisher-Yates draw pairs on three elements
(`j ∈ [0,2]` at `i = 2`, then `j ∈ [0,1]` at `i = 1`). -/
def fySeeds : List (Nat × Nat) := [(0, 0), (0, 1), (1, 0), (1, 1), (2, 0), (2, 1)]

/-- The Fisher-Yates outcomes on `deck3` over all equally likely draws. -/
def outsFY : List (List Character) :=
  fySeeds.map (fun p => shufflePowerUp (randOf p.1 p.2) deck3)

/-- The comparator-sort outcomes on `deck3` over all equally likely
comparison streams. -/
def outsC : List (List Character) := bits3.map (fun bs => sortRand bs deck3)

/-- A deck whose position 0 holds a face-up unmatched card. -/
def faceUpDeck : List Character := [{ cardA with flipped := true }, cardB]

/-- A deck holding one pair, one of whose cards is face-up. -/
def halfUpDeck : List Character := [{ cardA with flipped := true }, { cardA with id := 1 }]

/-- A mid-session state with two face-up, differently named cards pending
resolution. -/
def sPending : GameState :=
  { difficulty := dNormal
    characters := [{ cardA with flipped := true }, { cardB with flipped := true }]
    flippedCards := [0, 1]
    matchedPairs := 0
    timeLeft := 60
    score := 0
    gameStarted := true
    gameOver := false
    gameWon := false
    powerUps := { shuffle := 1, hint := 2, slowTime := 1 }
    hintCard := none }

/-- A running session over a two-card deck, used to probe out-of-range flips. -/
def sSmall : GameState :=
  { sPending with characters := [cardA, cardB], flippedCards := [] }

/-- A finished (lost) old session whose mismatch timeout is still pending. -/
def sOld : GameState :=
  { sPending with timeLeft := 0, gameOver := true }

/-- The fresh session produced by pressing Play Again from `sOld`. -/
def sNew : GameState := initGame sOld [cardA, cardB, cardC]

/-- A deck whose position 0 holds a matched card. -/
def matchedDeck : List Character := [{ cardA with matched := true }, cardB, cardC]

/-- A running session over `halfUpDeck`, for the hint power-up. -/
def sHint : GameState := { sSmall with characters := halfUpDeck }

/-- The expected result of flipping card 0 of `sSmall`. -/
def sFlipped : GameState :=
  { sSmall with
    characters := updAt sSmall.characters 0 (fun ch => { ch with flipped := true }),
    flippedCards := sSmall.flippedCards ++ [0] }

/-- Invariant of the hint grouping pass: every collected index is below the
scan position and the deck length, refers to an unmatched card carrying the
entry's name, and each entry's index list is strictly increasing. -/
def GoodMap (chars : List Character) (k : Nat) (m : List (String × List Nat)) : Prop :=
  ∀ e ∈ m,
    (∀ idx ∈ e.2, idx < k ∧ idx < chars.length
      ∧ (chars.getD idx default).name = e.1
      ∧ (chars.getD idx default).matched = false)
    ∧ e.2.Pairwise (fun x y => x < y)

/-! ## Lemmas about the generated deck -/

theorem mkDeckAux_length (suitOf : Nat → Nat) (idx : Nat) (sel : List CharTemplate) :
    (mkDeckAux suitOf idx sel).length = 2 * sel.length := by
  induction sel generalizing idx with
  | nil => simp [mkDeckAux]
  | cons c rest ih =>
    simp only [mkDeckAux, List.length_cons, ih, List.length]
    omega

theorem mkDeckAux_map_name (suitOf : Nat → Nat) (idx : Nat) (sel : List CharTemplate) :
    (mkDeckAux suitOf idx sel).map Character.name
      = sel.flatMap (fun c => [c.name, c.name]) := by
  induction sel generalizing idx with
  | nil => simp [mkDeckAux]
  | cons c rest ih => simp [mkDeckAux, ih]

theorem mkDeckAux_filter_name (suitOf : Nat → Nat) (idx : Nat) (sel : List CharTemplate)
    (n : String) :
    ((mkDeckAux suitOf idx sel).filter (fun c => c.name == n)).length
      = 2 * (sel.filter (fun c => c.name == n)).length := by
  induction sel generalizing idx with
  | nil => simp [mkDeckAux]
  | cons c rest ih =>
    by_cases h : c.name = n
    · simp [mkDeckAux, List.filter_cons, h, ih]
      omega
    · simp [mkDeckAux, List.filter_cons, h, ih]

theorem mkDeckAux_mem (suitOf : Nat → Nat) (idx : Nat) (sel : List CharTemplate)
    (c : Character) (h : c ∈ mkDeckAux suitOf idx sel) :
    c.matched = false ∧ c.flipped = false ∧ 2 * idx ≤ c.id ∧ c.id < 2 * (idx + sel.length) := by
  induction sel generalizing idx with
  | nil => simp [mkDeckAux] at h
  | cons t rest ih =>
    simp only [mkDeckAux, List.mem_cons] at h
    rcases h with h | h | h
    · subst h
      refine ⟨rfl, rfl, ?_, ?_⟩
      · show 2 * idx ≤ idx * 2
        omega
      · show idx * 2 < 2 * (idx + (rest.length + 1))
        omega
    · subst h
      refine ⟨rfl, rfl, ?_, ?_⟩
      · show 2 * idx ≤ idx * 2 + 1
        omega
      · show idx * 2 + 1 < 2 * (idx + (rest.length + 1))
        omega
    · obtain ⟨h1, h2, h3, h4⟩ := ih (idx + 1) h
      refine ⟨h1, h2, by omega, ?_⟩
      show c.id < 2 * (idx + (rest.length + 1))
      omega

theorem mkDeckAux_ids_nodup (suitOf : Nat → Nat) (idx : Nat) (sel : List CharTemplate) :
    ((mkDeckAux suitOf idx sel).map Character.id).Nodup := by
  induction sel generalizing idx with
  | nil => simp [mkDeckAux]
  | cons t rest ih =>
    simp only [mkDeckAux, List.map_cons, List.nodup_cons, List.mem_cons, List.mem_map]
    refine ⟨?_, ?_, ih (idx + 1)⟩
    · rintro (h | ⟨c, hc, hid⟩)
      · omega
      · have := mkDeckAux_mem suitOf (idx + 1) rest c hc
        omega
    · rintro ⟨c, hc, hid⟩
      have := mkDeckAux_mem suitOf (idx + 1) rest c hc
      omega

theorem filter_name_eq_nil {sel : List CharTemplate} {n : String}
    (h : n ∉ sel.map CharTemplate.name) :
    sel.filter (fun c => c.name == n) = [] := by
  induction sel with
  | nil => rfl
  | cons c rest ih =>
    simp only [List.map_cons, List.mem_cons] at h
    push_neg at h
    simp [List.filter_cons, Ne.symm h.1, ih h.2]

theorem sel_filter_one {sel : List CharTemplate}
    (hn : (sel.map CharTemplate.name).Nodup)
    {n : String} (hmem : n ∈ sel.map CharTemplate.name) :
    (sel.filter (fun c => c.name == n)).length = 1 := by
  induction sel with
  | nil => simp at hmem
  | cons c rest ih =>
    simp only [List.map_cons, List.nodup_cons] at hn
    simp only [List.map_cons, List.mem_cons] at hmem
    rcases hmem with h | h
    · have : rest.filter (fun t => t.name == n) = [] :=
        filter_name_eq_nil (by rw [← h] at hn; exact hn.1)
      simp [List.filter_cons, h.symm, this]
    · have hne : c.name ≠ n := fun hc => hn.1 (hc ▸ h)
      simp [List.filter_cons, hne, ih hn.2 h]

theorem characterData_names_nodup : (characterData.map CharTemplate.name).Nodup := by
  decide

/-- Claim C1: for every difficulty with `pairs = p` (with `p` at most the
template pool size), the generated deck — any permutation `final` of the
paired cards built from any selection order over the pool — has length `2p`,
every `name` occurs in exactly two cards, every card starts `FaceDown`, and
the card ids are pairwise distinct. -/
theorem c1_deck_shape (p : Nat) (order : List CharTemplate) (suitOf : Nat → Nat)
    (final : List Character)
    (hp : p ≤ characterData.length)
    (hord : List.Perm order characterData)
    (hfin : List.Perm final (initDeck order p suitOf)) :
    final.length = 2 * p
    ∧ (∀ n ∈ final.map Character.name, (final.filter (fun c => c.name == n)).length = 2)
    ∧ (∀ c ∈ final, c.state = CardState.FaceDown)
    ∧ (final.map Character.id).Nodup := by
  have hordlen : order.length = characterData.length := hord.length_eq
  have hsel : (order.take p).length = p := by
    rw [List.length_take]
    omega
  have hselnames : ((order.take p).map CharTemplate.name).Nodup := by
    have h1 : (order.map CharTemplate.name).Nodup :=
      ((hord.map CharTemplate.name).nodup_iff).mpr characterData_names_nodup
    exact ((List.take_sublist p order).map CharTemplate.name).nodup h1
  refine ⟨?_, ?_, ?_, ?_⟩
  · rw [hfin.length_eq]
    unfold initDeck
    rw [mkDeckAux_length, hsel]
  · intro n hn
    have hmm : n ∈ (initDeck order p suitOf).map Character.name :=
      ((hfin.map Character.name).mem_iff).mp hn
    have hsel_mem : n ∈ (order.take p).map CharTemplate.name := by
      unfold initDeck at hmm
      rw [mkDeckAux_map_name] at hmm
      simp only [List.mem_flatMap, List.mem_cons] at hmm
      obtain ⟨c, hc, hcn⟩ := hmm
      have : n = c.name := by
        rcases hcn with h | h | h
        · exact h
        · exact h
        · simp at h
      exact this ▸ List.mem_map_of_mem CharTemplate.name hc
    have hlen := (hfin.filter (fun c => c.name == n)).length_eq
    rw [hlen]
    unfold initDeck
    rw [mkDeckAux_filter_name, sel_filter_one hselnames hsel_mem]
  · intro c hc
    have hm : c ∈ initDeck order p suitOf := hfin.mem_iff.mp hc
    obtain ⟨h1, h2, _, _⟩ := mkDeckAux_mem suitOf 0 (order.take p) c hm
    simp [Character.state, h1, h2]
  · exact ((hfin.map Character.id).nodup_iff).mpr (mkDeckAux_ids_nodup suitOf 0 (order.take p))

/-- Witness for C1: at `pairs = 2` with the identity selection order, the
identity suit draw, and the identity final permutation, the generated deck
has 4 cards. -/
theorem c1_deck_shape_witness :
    (initDeck characterData 2 idSuit).length = 2 * 2 :=
  (c1_deck_shape 2 characterData idSuit (initDeck characterData 2 idSuit)
    (by decide) (List.Perm.refl _) (List.Perm.refl _)).1

/-! ## Lemmas about list updates -/

theorem getD_set_of_ne (l : List Character) (i j : Nat) (v : Character) (h : i ≠ j) :
    (l.set i v).getD j default = l.getD j default := by
  simp [List.getD_eq_getD_get?, List.get?_eq_getElem?, List.getElem?_set_ne h]

theorem getD_set_self (l : List Character) (i : Nat) (v : Character) (h : i < l.length) :
    (l.set i v).getD i default = v := by
  rw [List.getD_eq_getElem _ _ (by simpa using h)]
  simp [List.getElem_set_self]

theorem length_updAt (l : List Character) (i : Nat) (f : Character → Character) :
    (updAt l i f).length = l.length := by
  simp [updAt]

theorem getD_updAt_ne (l : List Character) (i j : Nat) (f : Character → Character)
    (h : i ≠ j) : (updAt l i f).getD j default = l.getD j default :=
  getD_set_of_ne l i j _ h

theorem getD_updAt_self (l : List Character) (i : Nat) (f : Character → Character)
    (h : i < l.length) : (updAt l i f).getD i default = f (l.getD i default) :=
  getD_set_self l i _ h

theorem state_of_set_matched (c : Character) :
    ({ c with matched := true } : Character).state = CardState.Matched := by
  simp [Character.state]

theorem state_of_unflip (c : Character) (h : c.matched = false) :
    ({ c with flipped := false } : Character).state = CardState.FaceDown := by
  simp [Character.state, h]

theorem checkMatches_pair (s : GameState) (a b : Nat) (hfc : s.flippedCards = [a, b]) :
    checkMatches s =
      if (s.characters.getD a default).name = (s.characters.getD b default).name then
        ResolveAction.matchedNow
          { s with
            characters := updAt (updAt s.characters a (fun c => { c with matched := true }))
              b (fun c => { c with matched := true }),
            score := s.score + 10,
            matchedPairs := s.matchedPairs + 1,
            timeLeft := s.timeLeft + 5,
            flippedCards := [] }
      else ResolveAction.mismatchScheduled 1000 a b s.characters s := by
  unfold checkMatches
  rw [hfc]

/-! ## C2: match and mismatch resolution -/

/-- Claim C2: with two face-up ids `[a, b]` pending, equal names resolve
immediately — both cards `Matched`, `score + 10`, `matchedPairs + 1`,
`timeLeft + 5`, `flippedCards` cleared with no delay; different names
schedule a 1000 ms reversion whose firing returns both cards to `FaceDown`,
clears `flippedCards`, and sets `timeLeft = max 1 (timeLeft - 2)`. -/
theorem c2_resolution (s : GameState) (a b : Nat)
    (hfc : s.flippedCards = [a, b])
    (ha : a < s.characters.length) (hb : b < s.characters.length)
    (hma : (s.characters.getD a default).matched = false)
    (hmb : (s.characters.getD b default).matched = false) :
    ((s.characters.getD a default).name = (s.characters.getD b default).name →
      ∃ s₁, checkMatches s = ResolveAction.matchedNow s₁
        ∧ (s₁.characters.getD a default).state = CardState.Matched
        ∧ (s₁.characters.getD b default).state = CardState.Matched
        ∧ s₁.score = s.score + 10
        ∧ s₁.matchedPairs = s.matchedPairs + 1
        ∧ s₁.timeLeft = s.timeLeft + 5
        ∧ s₁.flippedCards = [])
    ∧ ((s.characters.getD a default).name ≠ (s.characters.getD b default).name →
      checkMatches s = ResolveAction.mismatchScheduled 1000 a b s.characters s
      ∧ ∀ s₂ : GameState,
        ((mismatchFire s.characters a b s₂).characters.getD a default).state
            = CardState.FaceDown
        ∧ ((mismatchFire s.characters a b s₂).characters.getD b default).state
            = CardState.FaceDown
        ∧ (mismatchFire s.characters a b s₂).flippedCards = []
        ∧ (mismatchFire s.characters a b s₂).timeLeft = max 1 (s₂.timeLeft - 2)) := by
  constructor
  · intro heq
    refine ⟨{ s with
        characters := updAt (updAt s.characters a (fun c => { c with matched := true }))
          b (fun c => { c with matched := true }),
        score := s.score + 10,
        matchedPairs := s.matchedPairs + 1,
        timeLeft := s.timeLeft + 5,
        flippedCards := [] }, ?_, ?_, ?_, rfl, rfl, rfl, rfl⟩
    · rw [checkMatches_pair s a b hfc, if_pos heq]
    · simp only
      by_cases hab : a = b
      · subst hab
        rw [getD_updAt_self _ _ _ (by rw [length_updAt]; exact ha)]
        exact state_of_set_matched _
      · rw [getD_updAt_ne _ _ _ _ (Ne.symm hab), getD_updAt_self _ _ _ ha]
        exact state_of_set_matched _
    · simp only
      rw [getD_updAt_self _ _ _ (by rw [length_updAt]; exact hb)]
      exact state_of_set_matched _
  · intro hne
    constructor
    · rw [checkMatches_pair s a b hfc, if_neg hne]
    · intro s₂
      refine ⟨?_, ?_, rfl, rfl⟩
      · simp only [mismatchFire]
        by_cases hab : a = b
        · subst hab
          rw [getD_updAt_self _ _ _ (by rw [length_updAt]; exact ha),
            getD_updAt_self _ _ _ ha]
          exact state_of_unflip _ hma
        · rw [getD_updAt_ne _ _ _ _ (Ne.symm hab), getD_updAt_self _ _ _ ha]
          exact state_of_unflip _ hma
      · simp only [mismatchFire]
        rw [getD_updAt_self _ _ _ (by rw [length_updAt]; exact hb)]
        by_cases hab : a = b
        · subst hab
          rw [getD_updAt_self _ _ _ ha]
          exact state_of_unflip _ hma
        · rw [getD_updAt_ne _ _ _ _ hab]
          exact state_of_unflip _ hmb

/-- Witness for C2: on the concrete pending state with differing names, the
effect schedules the 1000 ms reversion. -/
theorem c2_resolution_witness :
    checkMatches sPending
      = ResolveAction.mismatchScheduled 1000 0 1 sPending.characters sPending :=
  ((c2_resolution sPending 0 1 rfl (by decide) (by decide) (by decide) (by decide)).2
    (by decide)).1

/-! ## C4: shuffle distributions -/

/-- Counterexample to C4: the initial deck randomization is the
random-comparator sort, and its output distribution is not uniform — on a
three-card deck over the 8 equally likely comparison streams, the identity
arrangement occurs more often than its reversal. -/
theorem c4_counterexample :
    outsC.count [cardA, cardB, cardC] ≠ outsC.count [cardC, cardB, cardA] := by
  decide

/-- C4 amended: only the shuffle power-up performs an explicit Fisher-Yates
pass, and that pass is uniform — on a three-card all-unmatched deck each of
the six arrangements arises from exactly one of the six equally likely draw
pairs; the initial deck randomization instead uses the random-comparator
sort, whose outcome distribution on the same deck is skewed (2/8 for two
arrangements, 1/8 for the other four). -/
theorem c4_shuffle_distribution :
    (outsFY.length = 6
      ∧ outsFY.count [cardA, cardB, cardC] = 1
      ∧ outsFY.count [cardA, cardC, cardB] = 1
      ∧ outsFY.count [cardB, cardA, cardC] = 1
      ∧ outsFY.count [cardB, cardC, cardA] = 1
      ∧ outsFY.count [cardC, cardA, cardB] = 1
      ∧ outsFY.count [cardC, cardB, cardA] = 1)
    ∧ (outsC.length = 8
      ∧ outsC.count [cardA, cardB, cardC] = 2
      ∧ outsC.count [cardA, cardC, cardB] = 2
      ∧ outsC.count [cardB, cardA, cardC] = 1
      ∧ outsC.count [cardB, cardC, cardA] = 1
      ∧ outsC.count [cardC, cardA, cardB] = 1
      ∧ outsC.count [cardC, cardB, cardA] = 1) := by
  decide

/-! ## C5: no generation failure -/

/-- Counterexample to C5: with `pairs = 19`, which exceeds the 18-template
pool, board generation does not fail with a `ConfigurationError` — it
returns normally with a silently truncated 36-card deck. -/
theorem c5_counterexample :
    characterData.length = 18
    ∧ initGameResult characterData 19 idSuit = Except.ok (initDeck characterData 19 idSuit)
    ∧ (initDeck characterData 19 idSuit).length = 36 := by
  refine ⟨by decide, rfl, by decide⟩

/-- C5 amended: board generation never raises an error for any `pairs`
value; the deck is silently truncated to `2 * min pairs 18` cards when
`pairs` exceeds the pool size. -/
theorem c5_no_failure (order : List CharTemplate) (pairs : Nat) (suitOf : Nat → Nat)
    (hord : List.Perm order characterData) :
    initGameResult order pairs suitOf = Except.ok (initDeck order pairs suitOf)
    ∧ (initDeck order pairs suitOf).length = 2 * min pairs 18 := by
  refine ⟨rfl, ?_⟩
  unfold initDeck
  rw [mkDeckAux_length, List.length_take, hord.length_eq]
  rfl

/-- Witness for C5: at `pairs = 19` the generator returns a 36-card deck and
no error. -/
theorem c5_no_failure_witness :
    initGameResult characterData 19 idSuit = Except.ok (initDeck characterData 19 idSuit)
    ∧ (initDeck characterData 19 idSuit).length = 2 * min 19 18 :=
  c5_no_failure characterData 19 idSuit (List.Perm.refl _)

/-! ## C6: the shuffle power-up frame -/

theorem getD_mem_of_lt (l : List Nat) (i : Nat) (h : i < l.length) :
    l.getD i 0 ∈ l := by
  rw [List.getD_eq_getElem l 0 h]
  exact List.getElem_mem h

theorem swapIdx_frame (arr : List Character) (p q r : Nat) (hq : p ≠ q) (hr : p ≠ r) :
    (swapIdx arr q r).getD p default = arr.getD p default := by
  unfold swapIdx
  rw [getD_set_of_ne _ _ _ _ (fun h => hr h.symm),
    getD_set_of_ne _ _ _ _ (fun h => hq h.symm)]

theorem fyAux_frame (rand : Nat → Nat) (idxs : List Nat) (p : Nat) (hp : p ∉ idxs) :
    ∀ (n : Nat) (arr : List Character), n < idxs.length →
      (fyAux rand idxs n arr).getD p default = arr.getD p default := by
  intro n
  induction n with
  | zero => intro arr _; rfl
  | succ i ih =>
    intro arr hn
    have h1 : idxs.getD (i + 1) 0 ∈ idxs := getD_mem_of_lt idxs (i + 1) hn
    have h2 : idxs.getD (rand (i + 1) % (i + 2)) 0 ∈ idxs := by
      refine getD_mem_of_lt idxs _ (lt_of_le_of_lt ?_ hn)
      have := Nat.mod_lt (rand (i + 1)) (y := i + 2) (by omega)
      omega
    show (fyAux rand idxs i _).getD p default = arr.getD p default
    rw [ih _ (by omega)]
    exact swapIdx_frame arr p _ _ (fun h => hp (h ▸ h1)) (fun h => hp (h ▸ h2))

theorem shufflePowerUp_frame (rand : Nat → Nat) (chars : List Character) (p : Nat)
    (hp : p ∉ unmatchedIndices chars) :
    (shufflePowerUp rand chars).getD p default = chars.getD p default := by
  unfold shufflePowerUp
  simp only
  rcases Nat.eq_zero_or_pos (unmatchedIndices chars).length with h | h
  · rw [h]
    rfl
  · exact fyAux_frame rand _ p hp _ chars (by omega)

/-- Counterexample to C6: on a deck whose position 0 holds a face-up
unmatched card, the shuffle power-up moves that card — `FaceUp` cards are
not excluded from the Fisher-Yates index set, only `Matched` ones are. -/
theorem c6_counterexample :
    (faceUpDeck.getD 0 default).state = CardState.FaceUp
    ∧ (shufflePowerUp randZero faceUpDeck).getD 0 default ≠ faceUpDeck.getD 0 default := by
  decide

/-- C6 amended: the shuffle power-up permutes the deck positions of all
non-`Matched` cards (face-up ones included); every `Matched` card keeps its
position. -/
theorem c6_matched_frame (rand : Nat → Nat) (chars : List Character) (p : Nat)
    (hm : (chars.getD p default).matched = true) :
    (shufflePowerUp rand chars).getD p default = chars.getD p default := by
  apply shufflePowerUp_frame
  intro hmem
  unfold unmatchedIndices at hmem
  rw [List.mem_filter] at hmem
  rw [hm] at hmem
  simp at hmem

/-- Witness for C6: the matched card at position 0 of `matchedDeck` stays
put under the shuffle. -/
theorem c6_matched_frame_witness :
    (shufflePowerUp randZero matchedDeck).getD 0 default = matchedDeck.getD 0 default :=
  c6_matched_frame randZero matchedDeck 0 (by decide)

/-! ## C7: the hint power-up -/

theorem mem_insertIdx {m : List (String × List Nat)} {n : String} {k : Nat}
    {e : String × List Nat} (h : e ∈ insertIdx m n k) :
    e ∈ m ∨ (∃ l, (n, l) ∈ m ∧ e = (n, l ++ [k])) ∨ e = (n, [k]) := by
  induction m with
  | nil =>
    simp only [insertIdx, List.mem_singleton] at h
    exact Or.inr (Or.inr h)
  | cons hd rest ih =>
    obtain ⟨n₁, l⟩ := hd
    simp only [insertIdx] at h
    by_cases hn : n₁ = n
    · rw [if_pos hn] at h
      rcases List.mem_cons.mp h with h | h
      · subst hn
        exact Or.inr (Or.inl ⟨l, List.mem_cons_self _ _, h⟩)
      · exact Or.inl (List.mem_cons_of_mem _ h)
    · rw [if_neg hn] at h
      rcases List.mem_cons.mp h with h | h
      · exact Or.inl (h ▸ List.mem_cons_self _ _)
      · rcases ih h with h | ⟨l', hl', he⟩ | he
        · exact Or.inl (List.mem_cons_of_mem _ h)
        · exact Or.inr (Or.inl ⟨l', List.mem_cons_of_mem _ hl', he⟩)
        · exact Or.inr (Or.inr he)

theorem goodMap_mono {chars : List Character} {k : Nat} {m : List (String × List Nat)}
    (hg : GoodMap chars k m) : GoodMap chars (k + 1) m := by
  intro e he
  obtain ⟨h1, h2⟩ := hg e he
  refine ⟨fun idx hidx => ?_, h2⟩
  obtain ⟨a, b, c, d⟩ := h1 idx hidx
  exact ⟨by omega, b, c, d⟩

theorem goodMap_insertIdx {chars : List Character} {k : Nat}
    {m : List (String × List Nat)} (hg : GoodMap chars k m) (hk : k < chars.length)
    (hum : (chars.getD k default).matched = false) :
    GoodMap chars (k + 1) (insertIdx m (chars.getD k default).name k) := by
  intro e he
  rcases mem_insertIdx he with h | ⟨l, hl, heq⟩ | heq
  · exact goodMap_mono hg e h
  · obtain ⟨h1, h2⟩ := hg _ hl
    subst heq
    constructor
    · intro idx hidx
      rcases List.mem_append.mp hidx with h | h
      · obtain ⟨a, b, c, d⟩ := h1 idx h
        exact ⟨by omega, b, c, d⟩
      · rw [List.mem_singleton] at h
        subst h
        exact ⟨by omega, hk, rfl, hum⟩
    · rw [List.pairwise_append]
      refine ⟨h2, List.pairwise_singleton _ _, ?_⟩
      intro x hx y hy
      rw [List.mem_singleton] at hy
      subst hy
      exact (h1 x hx).1
  · subst heq
    refine ⟨fun idx hidx => ?_, List.pairwise_singleton _ _⟩
    rw [List.mem_singleton] at hidx
    subst hidx
    exact ⟨by omega, hk, rfl, hum⟩

theorem getD_append_cons (pre : List Character) (c : Character) (rest : List Character) :
    (pre ++ c :: rest).getD pre.length default = c := by
  rw [List.getD_append_right _ _ _ _ (le_refl _)]
  simp

theorem goodMap_groupAux (rest : List Character) :
    ∀ (pre : List Character) (m : List (String × List Nat)),
      GoodMap (pre ++ rest) pre.length m →
      GoodMap (pre ++ rest) (pre.length + rest.length)
        (groupUnmatchedAux pre.length rest m) := by
  induction rest with
  | nil =>
    intro pre m hg
    simpa [groupUnmatchedAux] using hg
  | cons c rest ih =>
    intro pre m hg
    show GoodMap (pre ++ c :: rest) (pre.length + (rest.length + 1))
      (groupUnmatchedAux (pre.length + 1) rest
        (if c.matched = true then m else insertIdx m c.name pre.length))
    have hc : (pre ++ c :: rest).getD pre.length default = c := getD_append_cons pre c rest
    have h1 : GoodMap (pre ++ c :: rest) (pre.length + 1)
        (if c.matched = true then m else insertIdx m c.name pre.length) := by
      by_cases hm : c.matched = true
      · rw [if_pos hm]
        exact goodMap_mono hg
      · rw [if_neg hm]
        have := goodMap_insertIdx hg
          (by rw [List.length_append, List.length_cons]; omega)
          (by rw [hc]; exact Bool.eq_false_iff.mpr hm)
        rw [hc] at this
        exact this
    have h2 := ih (pre ++ [c])
      (if c.matched = true then m else insertIdx m c.name pre.length)
    rw [List.append_assoc, List.singleton_append, List.length_append,
      List.length_singleton] at h2
    have h3 := h2 h1
    have heq : pre.length + 1 + rest.length = pre.length + (rest.length + 1) := by omega
    rw [heq] at h3
    exact h3

theorem goodMap_group (chars : List Character) :
    GoodMap chars chars.length (groupUnmatched chars) := by
  have h := goodMap_groupAux chars [] [] (by intro e he; simp at he)
  simpa [groupUnmatched] using h

theorem mem_unmatchedPairsOf {chars : List Character} {pair : List Nat}
    (h : pair ∈ unmatchedPairsOf chars) :
    ∃ n, (n, pair) ∈ groupUnmatched chars ∧ pair.length = 2 := by
  unfold unmatchedPairsOf at h
  rw [List.mem_filterMap] at h
  obtain ⟨e, he, hfe⟩ := h
  by_cases hl : e.2.length = 2
  · rw [if_pos hl] at hfe
    injection hfe with hfe
    subst hfe
    exact ⟨e.1, he, hl⟩
  · rw [if_neg hl] at hfe
    cases hfe

theorem getD_list_mem {α : Type} [Inhabited α] (l : List α) (i : Nat) (d : α)
    (h : i < l.length) : l.getD i d ∈ l := by
  rw [List.getD_eq_getElem l d h]
  exact List.getElem_mem h

/-- Claim C7 counterexample: a pair with one card already `FaceUp` still
qualifies for the hint (only `matched` is checked), so the hint can mark a
card whose pair is not two `FaceDown` cards — here it marks the face-up card
itself. -/
theorem c7_counterexample :
    hintSelect halfUpDeck 0 0 = some 0
    ∧ (halfUpDeck.getD 0 default).state = CardState.FaceUp := by
  decide

/-- C7 amended: the hint power-up only ever selects a card belonging to a
pair whose two cards are both unmatched (either may be `FaceUp`); when no
name has exactly two unmatched cards the board is untouched, but the hint
counter is still decremented. -/
theorem c7_hint_selection (chars : List Character) (rPair rCard : Nat) :
    (∀ i, hintSelect chars rPair rCard = some i →
      i < chars.length
      ∧ (chars.getD i default).matched = false
      ∧ ∃ j, j ≠ i ∧ j < chars.length
          ∧ (chars.getD j default).matched = false
          ∧ (chars.getD j default).name = (chars.getD i default).name)
    ∧ (hintSelect chars rPair rCard = none ↔ unmatchedPairsOf chars = [])
    ∧ (∀ (s : GameState) (rand : Nat → Nat),
        s.characters = chars → s.gameStarted = true → s.gameOver = false →
        0 < s.powerUps.hint →
        (usePowerUp rand rPair rCard PowerUpType.hint s).powerUps.hint
            = s.powerUps.hint - 1
        ∧ (hintSelect chars rPair rCard = none →
            usePowerUp rand rPair rCard PowerUpType.hint s
              = { s with powerUps := decPower s.powerUps PowerUpType.hint })) := by
  refine ⟨?_, ?_, ?_⟩
  · intro i hi
    unfold hintSelect at hi
    by_cases hz : (unmatchedPairsOf chars).length = 0
    · rw [if_pos hz] at hi
      cases hi
    · rw [if_neg hz] at hi
      injection hi with hi
      set ps := unmatchedPairsOf chars with hps
      have hlt : rPair % ps.length < ps.length := Nat.mod_lt _ (by omega)
      have hpmem : ps.getD (rPair % ps.length) [] ∈ ps :=
        getD_list_mem ps _ [] hlt
      obtain ⟨n, hn, hlen⟩ := mem_unmatchedPairsOf hpmem
      obtain ⟨x, y, hxy⟩ := List.length_eq_two.mp hlen
      obtain ⟨hprops, hpw⟩ := goodMap_group chars _ hn
      have hxmem : x ∈ (ps.getD (rPair % ps.length) []) := by rw [hxy]; simp
      have hymem : y ∈ (ps.getD (rPair % ps.length) []) := by rw [hxy]; simp
      obtain ⟨_, hxlt, hxn, hxm⟩ := hprops x hxmem
      obtain ⟨_, hylt, hyn, hym⟩ := hprops y hymem
      have hxyne : x < y := by
        rw [hxy] at hpw
        exact List.rel_of_pairwise_cons hpw (List.mem_singleton.mpr rfl)
      rcases Nat.mod_two_eq_zero_or_one rCard with h2 | h2
      · have hival : i = x := by rw [← hi, hxy, h2]; rfl
        subst hival
        exact ⟨hxlt, hxm, y, by omega, hylt, hym, by rw [hyn, hxn]⟩
      · have hival : i = y := by rw [← hi, hxy, h2]; rfl
        subst hival
        exact ⟨hylt, hym, x, by omega, hxlt, hxm, by rw [hyn, hxn]⟩
  · unfold hintSelect
    by_cases hz : (unmatchedPairsOf chars).length = 0
    · rw [if_pos hz]
      simp [List.length_eq_zero.mp hz]
    · rw [if_neg hz]
      constructor
      · intro h
        cases h
      · intro h
        rw [h] at hz
        simp at hz
  · intro s rand hsc hstart hover hcount
    have hguard : ¬(powerCount s.powerUps PowerUpType.hint ≤ 0
        ∨ s.gameOver = true ∨ s.gameStarted = false) := by
      push_neg
      refine ⟨?_, by rw [hover]; simp, by rw [hstart]; simp⟩
      exact hcount
    constructor
    · unfold usePowerUp
      rw [if_neg hguard]
      simp only [hsc]
      rcases hsel : hintSelect chars rPair rCard with _ | i
      · rfl
      · rfl
    · intro hnone
      unfold usePowerUp
      rw [if_neg hguard]
      simp only [hsc, hnone]

/-- Witness for C7: on the concrete hint state the counter drops from 2
to 1. -/
theorem c7_hint_selection_witness :
    (usePowerUp randZero 0 0 PowerUpType.hint sHint).powerUps.hint
      = sHint.powerUps.hint - 1 :=
  ((c7_hint_selection halfUpDeck 0 0).2.2 sHint randZero rfl rfl rfl (by decide)).1

/-! ## C8 and C9: the flip guard and bounds behaviour -/

theorem state_faceDown_iff (c : Character) :
    c.state = CardState.FaceDown ↔ (c.flipped = false ∧ c.matched = false) := by
  unfold Character.state
  rcases hm : c.matched with _ | _
  · rcases hf : c.flipped with _ | _
    · simp
    · simp
  · simp

/-- Counterexample to C8: at the initial (menu, `NotStarted`) state the deck
is empty and `flip(0)` is not a silent no-op — the unguarded
`characters[id].flipped` access throws a `TypeError` even though the phase
is not `Playing`. -/
theorem c8_counterexample :
    handleCardFlip (initialState dNormal) 0 = Except.error "TypeError" := rfl

/-- C8 amended: for every state and every id naming an existing card, flip
is a silent no-op unless `gameOver` is false, `flippedCards` does not
already hold 2 ids, and the card is `FaceDown` (the guard checks `gameOver`
rather than the full `Playing` phase, and ids outside the deck throw
instead); when the conditions hold the card turns `FaceUp`, the id is
appended, and `flippedCards` never grows beyond 2. -/
theorem handleCardFlip_eq_some (s : GameState) (id : Nat) (c : Character)
    (hc : s.characters.get? id = some c) (h2 : s.flippedCards.length ≠ 2) :
    handleCardFlip s id =
      if c.flipped = true ∨ c.matched = true ∨ s.gameOver = true then Except.ok s
      else Except.ok { s with
        characters := updAt s.characters id (fun ch => { ch with flipped := true }),
        flippedCards := s.flippedCards ++ [id] } := by
  unfold handleCardFlip
  rw [if_neg h2, hc]

theorem c8_flip_guard (s : GameState) (id : Nat) (c : Character)
    (hc : s.characters.get? id = some c) :
    (s.flippedCards.length = 2 → handleCardFlip s id = Except.ok s)
    ∧ (s.flippedCards.length ≠ 2 →
        (c.state ≠ CardState.FaceDown ∨ s.gameOver = true) →
        handleCardFlip s id = Except.ok s)
    ∧ (s.flippedCards.length ≠ 2 → c.state = CardState.FaceDown →
        s.gameOver = false →
        handleCardFlip s id = Except.ok
          { s with
            characters := updAt s.characters id (fun ch => { ch with flipped := true }),
            flippedCards := s.flippedCards ++ [id] })
    ∧ (∀ s₁, handleCardFlip s id = Except.ok s₁ → s.flippedCards.length ≤ 2 →
        s₁.flippedCards.length ≤ 2) := by
  refine ⟨?_, ?_, ?_, ?_⟩
  · intro h2
    unfold handleCardFlip
    rw [if_pos h2]
  · intro h2 hblock
    rw [handleCardFlip_eq_some s id c hc h2]
    have hg : c.flipped = true ∨ c.matched = true ∨ s.gameOver = true := by
      rcases hblock with h | h
      · simp only [Ne, state_faceDown_iff] at h
        rcases hf : c.flipped with _ | _
        · rcases hmm : c.matched with _ | _
          · exact absurd ⟨hf, hmm⟩ h
          · exact Or.inr (Or.inl rfl)
        · exact Or.inl rfl
      · exact Or.inr (Or.inr h)
    rw [if_pos hg]
  · intro h2 hfd hover
    rw [state_faceDown_iff] at hfd
    rw [handleCardFlip_eq_some s id c hc h2]
    have hng : ¬(c.flipped = true ∨ c.matched = true ∨ s.gameOver = true) := by
      rw [hfd.1, hfd.2, hover]
      simp
    rw [if_neg hng]
  · intro s₁ hok hle
    by_cases h2 : s.flippedCards.length = 2
    · unfold handleCardFlip at hok
      rw [if_pos h2] at hok
      injection hok with hok
      subst hok
      omega
    · rw [handleCardFlip_eq_some s id c hc h2] at hok
      by_cases hg : c.flipped = true ∨ c.matched = true ∨ s.gameOver = true
      · rw [if_pos hg] at hok
        injection hok with hok
        subst hok
        omega
      · rw [if_neg hg] at hok
        injection hok with hok
        subst hok
        show (s.flippedCards ++ [id]).length ≤ 2
        rw [List.length_append, List.length_singleton]
        omega

/-- Witness for C8: flipping card 0 of the running two-card session turns it
face-up and records the id. -/
theorem c8_flip_guard_witness :
    handleCardFlip sSmall 0 = Except.ok sFlipped :=
  (c8_flip_guard sSmall 0 cardA rfl).2.2.1 (by decide) (by decide) rfl

/-- Counterexample to C9: over a two-card deck, `flip(5)` does not return
without crashing — the id is never bound-checked before
`characters[id].flipped`, so the access throws a `TypeError`. -/
theorem c9_counterexample :
    sSmall.characters.length = 2
    ∧ handleCardFlip sSmall 5 = Except.error "TypeError" := ⟨rfl, rfl⟩

/-- C9 amended: card ids are not bound-checked; for every id at or beyond
the deck length, flip throws a `TypeError` — except when `flippedCards`
already holds 2 ids, where the guard's first disjunct returns before the
deck access. -/
theorem c9_flip_bounds (s : GameState) (id : Nat)
    (hid : s.characters.length ≤ id) :
    (s.flippedCards.length ≠ 2 → handleCardFlip s id = Except.error "TypeError")
    ∧ (s.flippedCards.length = 2 → handleCardFlip s id = Except.ok s) := by
  constructor
  · intro h2
    unfold handleCardFlip
    rw [if_neg h2, List.get?_eq_none.mpr hid]
  · intro h2
    unfold handleCardFlip
    rw [if_pos h2]

/-- Witness for C9: with two cards already face-up, even an out-of-range id
returns early without the deck access. -/
theorem c9_flip_bounds_witness :
    handleCardFlip sPending 7 = Except.ok sPending :=
  (c9_flip_bounds sPending 7 (by decide)).2 rfl

/-! ## C3: machinery for the session machine -/

theorem checkMatches_nil (x : GameState) (h : x.flippedCards = []) :
    checkMatches x = ResolveAction.nothing := by
  unfold checkMatches
  rw [h]

theorem checkMatches_one (x : GameState) (a : Nat) (h : x.flippedCards = [a]) :
    checkMatches x = ResolveAction.nothing := by
  unfold checkMatches
  rw [h]

theorem checkMatches_three (x : GameState) (a b c : Nat) (tl : List Nat)
    (h : x.flippedCards = a :: b :: c :: tl) :
    checkMatches x = ResolveAction.nothing := by
  unfold checkMatches
  rw [h]

theorem applyResolve_of_nothing (x : GameState)
    (h : checkMatches x = ResolveAction.nothing) : applyResolve x = x := by
  unfold applyResolve
  rw [h]

theorem applyResolve_of_pair_ne (x : GameState) (a b : Nat)
    (hfc : x.flippedCards = [a, b])
    (hne : (x.characters.getD a default).name ≠ (x.characters.getD b default).name) :
    applyResolve x = x := by
  unfold applyResolve
  rw [checkMatches_pair x a b hfc, if_neg hne]

theorem applyResolve_of_pair_eq (x : GameState) (a b : Nat)
    (hfc : x.flippedCards = [a, b])
    (heq : (x.characters.getD a default).name = (x.characters.getD b default).name) :
    applyResolve x =
      { x with
        characters := updAt (updAt x.characters a (fun c => { c with matched := true }))
          b (fun c => { c with matched := true }),
        score := x.score + 10,
        matchedPairs := x.matchedPairs + 1,
        timeLeft := x.timeLeft + 5,
        flippedCards := [] } := by
  unfold applyResolve
  rw [checkMatches_pair x a b hfc, if_pos heq]

theorem applyResolve_id_of_no_pair (x : GameState)
    (h : ∀ a b, x.flippedCards = [a, b] →
      (x.characters.getD a default).name ≠ (x.characters.getD b default).name) :
    applyResolve x = x := by
  rcases hfc : x.flippedCards with _ | ⟨a1, tl1⟩
  · exact applyResolve_of_nothing x (checkMatches_nil x hfc)
  · rcases tl1 with _ | ⟨a2, tl2⟩
    · exact applyResolve_of_nothing x (checkMatches_one x a1 hfc)
    · rcases tl2 with _ | ⟨a3, tl3⟩
      · exact applyResolve_of_pair_ne x a1 a2 hfc (h a1 a2 hfc)
      · exact applyResolve_of_nothing x (checkMatches_three x a1 a2 a3 tl3 hfc)

theorem applyResolve_pending (x : GameState) (a b : Nat)
    (h : (applyResolve x).flippedCards = [a, b]) :
    ((applyResolve x).characters.getD a default).name
      ≠ ((applyResolve x).characters.getD b default).name := by
  rcases hfc : x.flippedCards with _ | ⟨a1, tl1⟩
  · rw [applyResolve_of_nothing x (checkMatches_nil x hfc)] at h
    rw [hfc] at h
    cases h
  · rcases tl1 with _ | ⟨a2, tl2⟩
    · rw [applyResolve_of_nothing x (checkMatches_one x a1 hfc)] at h
      rw [hfc] at h
      cases h
    · rcases tl2 with _ | ⟨a3, tl3⟩
      · by_cases heq : (x.characters.getD a1 default).name
            = (x.characters.getD a2 default).name
        · rw [applyResolve_of_pair_eq x a1 a2 hfc heq] at h
          cases h
        · have hid := applyResolve_of_pair_ne x a1 a2 hfc heq
          rw [hid] at h ⊢
          rw [hfc] at h
          injection h with h1 h
          injection h with h2 h
          subst h1
          subst h2
          exact heq
      · rw [applyResolve_of_nothing x (checkMatches_three x a1 a2 a3 tl3 hfc)] at h
        rw [hfc] at h
        cases h

theorem applyResolve_scalars (x : GameState) :
    (applyResolve x).difficulty = x.difficulty
    ∧ (applyResolve x).gameStarted = x.gameStarted
    ∧ (applyResolve x).gameOver = x.gameOver
    ∧ (applyResolve x).gameWon = x.gameWon := by
  rcases hfc : x.flippedCards with _ | ⟨a1, tl1⟩
  · rw [applyResolve_of_nothing x (checkMatches_nil x hfc)]
    exact ⟨rfl, rfl, rfl, rfl⟩
  · rcases tl1 with _ | ⟨a2, tl2⟩
    · rw [applyResolve_of_nothing x (checkMatches_one x a1 hfc)]
      exact ⟨rfl, rfl, rfl, rfl⟩
    · rcases tl2 with _ | ⟨a3, tl3⟩
      · by_cases heq : (x.characters.getD a1 default).name
            = (x.characters.getD a2 default).name
        · rw [applyResolve_of_pair_eq x a1 a2 hfc heq]
          exact ⟨rfl, rfl, rfl, rfl⟩
        · rw [applyResolve_of_pair_ne x a1 a2 hfc heq]
          exact ⟨rfl, rfl, rfl, rfl⟩
      · rw [applyResolve_of_nothing x (checkMatches_three x a1 a2 a3 tl3 hfc)]
        exact ⟨rfl, rfl, rfl, rfl⟩

theorem checkWin_pos (y : GameState)
    (h : y.gameStarted = true ∧ y.matchedPairs = y.difficulty.pairs) :
    checkWin y = { y with gameWon := true, gameOver := true } := by
  unfold checkWin
  rw [if_pos h]

theorem checkWin_neg (y : GameState)
    (h : ¬(y.gameStarted = true ∧ y.matchedPairs = y.difficulty.pairs)) :
    checkWin y = y := by
  unfold checkWin
  rw [if_neg h]

theorem checkWin_fields (y : GameState) :
    (checkWin y).flippedCards = y.flippedCards
    ∧ (checkWin y).characters = y.characters
    ∧ (checkWin y).matchedPairs = y.matchedPairs
    ∧ (checkWin y).gameStarted = y.gameStarted
    ∧ (checkWin y).difficulty = y.difficulty
    ∧ (checkWin y).timeLeft = y.timeLeft := by
  by_cases h : y.gameStarted = true ∧ y.matchedPairs = y.difficulty.pairs
  · rw [checkWin_pos y h]
    exact ⟨rfl, rfl, rfl, rfl, rfl, rfl⟩
  · rw [checkWin_neg y h]
    exact ⟨rfl, rfl, rfl, rfl, rfl, rfl⟩

theorem checkWin_won_of_not_fired (y : GameState)
    (h : (checkWin y).gameWon = false) : checkWin y = y := by
  by_cases hc : y.gameStarted = true ∧ y.matchedPairs = y.difficulty.pairs
  · rw [checkWin_pos y hc] at h
    cases h
  · exact checkWin_neg y hc

theorem timerTick_run (s : GameState) (h1 : s.gameStarted = true)
    (h2 : s.gameOver = false) :
    (s.timeLeft ≤ 1 → timerTick s = { s with timeLeft := 0, gameOver := true })
    ∧ (¬s.timeLeft ≤ 1 → timerTick s = { s with timeLeft := s.timeLeft - 1 }) := by
  constructor
  · intro hle
    unfold timerTick
    rw [if_pos ⟨h1, h2⟩, if_pos hle]
  · intro hgt
    unfold timerTick
    rw [if_pos ⟨h1, h2⟩, if_neg hgt]

theorem timerTick_stop (s : GameState)
    (h : ¬(s.gameStarted = true ∧ s.gameOver = false)) : timerTick s = s := by
  unfold timerTick
  rw [if_neg h]

theorem timerTick_scalars (s : GameState) :
    (timerTick s).gameWon = s.gameWon
    ∧ (timerTick s).gameStarted = s.gameStarted
    ∧ (timerTick s).matchedPairs = s.matchedPairs
    ∧ (timerTick s).difficulty = s.difficulty
    ∧ (timerTick s).flippedCards = s.flippedCards
    ∧ (timerTick s).characters = s.characters := by
  by_cases h : s.gameStarted = true ∧ s.gameOver = false
  · by_cases hle : s.timeLeft ≤ 1
    · rw [(timerTick_run s h.1 h.2).1 hle]
      exact ⟨rfl, rfl, rfl, rfl, rfl, rfl⟩
    · rw [(timerTick_run s h.1 h.2).2 hle]
      exact ⟨rfl, rfl, rfl, rfl, rfl, rfl⟩
  · rw [timerTick_stop s h]
    exact ⟨rfl, rfl, rfl, rfl, rfl, rfl⟩

theorem usePowerUp_scalars (rand : Nat → Nat) (rPair rCard : Nat) (t : PowerUpType)
    (s : GameState) :
    (usePowerUp rand rPair rCard t s).gameWon = s.gameWon
    ∧ (usePowerUp rand rPair rCard t s).gameOver = s.gameOver
    ∧ (usePowerUp rand rPair rCard t s).gameStarted = s.gameStarted
    ∧ (usePowerUp rand rPair rCard t s).matchedPairs = s.matchedPairs
    ∧ (usePowerUp rand rPair rCard t s).difficulty = s.difficulty
    ∧ (usePowerUp rand rPair rCard t s).flippedCards = s.flippedCards := by
  unfold usePowerUp
  by_cases hg : powerCount s.powerUps t ≤ 0 ∨ s.gameOver = true ∨ s.gameStarted = false
  · rw [if_pos hg]
    exact ⟨rfl, rfl, rfl, rfl, rfl, rfl⟩
  · rw [if_neg hg]
    cases t with
    | shuffle => exact ⟨rfl, rfl, rfl, rfl, rfl, rfl⟩
    | hint =>
      rcases hsel : hintSelect s.characters rPair rCard with _ | i
      · simp [hsel]
      · simp [hsel]
    | slowTime => exact ⟨rfl, rfl, rfl, rfl, rfl, rfl⟩

theorem usePowerUp_of_gameOver (rand : Nat → Nat) (rPair rCard : Nat) (t : PowerUpType)
    (s : GameState) (h : s.gameOver = true) : usePowerUp rand rPair rCard t s = s := by
  unfold usePowerUp
  rw [if_pos (Or.inr (Or.inl h))]

theorem handleCardFlip_ok_fields (s : GameState) (id : Nat) (s₁ : GameState)
    (h : handleCardFlip s id = Except.ok s₁) :
    s₁.difficulty = s.difficulty ∧ s₁.matchedPairs = s.matchedPairs
    ∧ s₁.timeLeft = s.timeLeft ∧ s₁.score = s.score
    ∧ s₁.gameStarted = s.gameStarted ∧ s₁.gameOver = s.gameOver
    ∧ s₁.gameWon = s.gameWon := by
  by_cases h2 : s.flippedCards.length = 2
  · unfold handleCardFlip at h
    rw [if_pos h2] at h
    injection h with h
    subst h
    exact ⟨rfl, rfl, rfl, rfl, rfl, rfl, rfl⟩
  · rcases hc : s.characters.get? id with _ | c
    · unfold handleCardFlip at h
      rw [if_neg h2, hc] at h
      cases h
    · rw [handleCardFlip_eq_some s id c hc h2] at h
      by_cases hg : c.flipped = true ∨ c.matched = true ∨ s.gameOver = true
      · rw [if_pos hg] at h
        injection h with h
        subst h
        exact ⟨rfl, rfl, rfl, rfl, rfl, rfl, rfl⟩
      · rw [if_neg hg] at h
        injection h with h
        subst h
        exact ⟨rfl, rfl, rfl, rfl, rfl, rfl, rfl⟩

theorem rawStep_flip_eq (s : GameState) (id : Nat) :
    rawStep (Event.flip id) s =
      (match handleCardFlip s id with
        | Except.ok s₁ => s₁
        | Except.error _ => s) := rfl

theorem rawStep_tick_eq (s : GameState) : rawStep Event.tick s = timerTick s := rfl

theorem rawStep_mismatch_eq (s : GameState) (snap : List Character) (a b : Nat) :
    rawStep (Event.mismatchTimeout snap a b) s = mismatchFire snap a b s := rfl

theorem rawStep_hint_eq (s : GameState) :
    rawStep Event.hintTimeout s = hintFire s := rfl

theorem rawStep_power_eq (s : GameState) (t : PowerUpType) (rand : Nat → Nat)
    (rPair rCard : Nat) :
    rawStep (Event.power t rand rPair rCard) s = usePowerUp rand rPair rCard t s := rfl

theorem rawStep_restart_eq (s : GameState) (deck : List Character) :
    rawStep (Event.restart deck) s = initGame s deck := rfl

theorem rawStep_start_eq (s : GameState) (deck : List Character) :
    rawStep (Event.startGame deck) s = { initGame s deck with gameStarted := true } := rfl

theorem rawStep_menu_eq (s : GameState) :
    rawStep Event.menu s = { s with gameStarted := false } := rfl

theorem rawStep_setDiff_eq (s : GameState) (d : DifficultyLevel) :
    rawStep (Event.setDiff d) s =
      (if s.gameStarted = true then s else { s with difficulty := d }) := rfl

theorem rawStep_flip_scalars (s : GameState) (id : Nat) :
    (rawStep (Event.flip id) s).gameWon = s.gameWon
    ∧ (rawStep (Event.flip id) s).gameOver = s.gameOver
    ∧ (rawStep (Event.flip id) s).gameStarted = s.gameStarted
    ∧ (rawStep (Event.flip id) s).matchedPairs = s.matchedPairs
    ∧ (rawStep (Event.flip id) s).difficulty = s.difficulty
    ∧ (rawStep (Event.flip id) s).timeLeft = s.timeLeft := by
  rw [rawStep_flip_eq]
  rcases h : handleCardFlip s id with msg | s₁
  · exact ⟨rfl, rfl, rfl, rfl, rfl, rfl⟩
  · obtain ⟨h1, h2, h3, _, h5, h6, h7⟩ := handleCardFlip_ok_fields s id s₁ h
    exact ⟨h7, h6, h5, h2, h1, h3⟩

theorem rawStep_flip_of_gameOver (s : GameState) (id : Nat) (h : s.gameOver = true) :
    rawStep (Event.flip id) s = s := by
  rw [rawStep_flip_eq]
  by_cases h2 : s.flippedCards.length = 2
  · unfold handleCardFlip
    rw [if_pos h2]
  · rcases hc : s.characters.get? id with _ | c
    · unfold handleCardFlip
      rw [if_neg h2, hc]
    · rw [handleCardFlip_eq_some s id c hc h2,
        if_pos (Or.inr (Or.inr h))]

theorem rawStep_gameWon_false (e : Event) (s : GameState) (h : s.gameWon = false) :
    (rawStep e s).gameWon = false := by
  cases e with
  | flip id =>
    rw [(rawStep_flip_scalars s id).1]
    exact h
  | tick =>
    rw [rawStep_tick_eq, (timerTick_scalars s).1]
    exact h
  | mismatchTimeout snap a b => exact h
  | hintTimeout => exact h
  | power t rand rPair rCard =>
    rw [rawStep_power_eq, (usePowerUp_scalars rand rPair rCard t s).1]
    exact h
  | restart deck => rfl
  | startGame deck => rfl
  | menu => exact h
  | setDiff d₁ =>
    rw [rawStep_setDiff_eq]
    by_cases hs : s.gameStarted = true
    · rw [if_pos hs]
      exact h
    · rw [if_neg hs]
      exact h

theorem rawStep_gameWon_true (e : Event) (s : GameState) (h : s.gameWon = true) :
    (rawStep e s).gameWon = true
    ∨ ∃ deck, e = Event.restart deck ∨ e = Event.startGame deck := by
  cases e with
  | flip id =>
    left
    rw [(rawStep_flip_scalars s id).1]
    exact h
  | tick =>
    left
    rw [rawStep_tick_eq, (timerTick_scalars s).1]
    exact h
  | mismatchTimeout snap a b => exact Or.inl h
  | hintTimeout => exact Or.inl h
  | power t rand rPair rCard =>
    left
    rw [rawStep_power_eq, (usePowerUp_scalars rand rPair rCard t s).1]
    exact h
  | restart deck => exact Or.inr ⟨deck, Or.inl rfl⟩
  | startGame deck => exact Or.inr ⟨deck, Or.inr rfl⟩
  | menu => exact Or.inl h
  | setDiff d₁ =>
    left
    rw [rawStep_setDiff_eq]
    by_cases hs : s.gameStarted = true
    · rw [if_pos hs]
      exact h
    · rw [if_neg hs]
      exact h

theorem rawStep_gameOver_new (e : Event) (s : GameState) (h0 : s.gameOver = false)
    (h1 : (rawStep e s).gameOver = true) :
    e = Event.tick ∧ s.gameStarted = true ∧ s.timeLeft ≤ 1 := by
  cases e with
  | flip id =>
    rw [(rawStep_flip_scalars s id).2.1, h0] at h1
    cases h1
  | tick =>
    rw [rawStep_tick_eq] at h1
    by_cases hg : s.gameStarted = true ∧ s.gameOver = false
    · by_cases hle : s.timeLeft ≤ 1
      · exact ⟨rfl, hg.1, hle⟩
      · rw [(timerTick_run s hg.1 hg.2).2 hle] at h1
        rw [show ({ s with timeLeft := s.timeLeft - 1 } : GameState).gameOver
            = s.gameOver from rfl, h0] at h1
        cases h1
    · rw [timerTick_stop s hg, h0] at h1
      cases h1
  | mismatchTimeout snap a b =>
    rw [show (rawStep (Event.mismatchTimeout snap a b) s).gameOver
        = s.gameOver from rfl, h0] at h1
    cases h1
  | hintTimeout =>
    rw [show (rawStep Event.hintTimeout s).gameOver = s.gameOver from rfl, h0] at h1
    cases h1
  | power t rand rPair rCard =>
    rw [rawStep_power_eq, (usePowerUp_scalars rand rPair rCard t s).2.1, h0] at h1
    cases h1
  | restart deck =>
    rw [show (rawStep (Event.restart deck) s).gameOver = false from rfl] at h1
    cases h1
  | startGame deck =>
    rw [show (rawStep (Event.startGame deck) s).gameOver = false from rfl] at h1
    cases h1
  | menu =>
    rw [show (rawStep Event.menu s).gameOver = s.gameOver from rfl, h0] at h1
    cases h1
  | setDiff d₁ =>
    rw [rawStep_setDiff_eq] at h1
    by_cases hs : s.gameStarted = true
    · rw [if_pos hs, h0] at h1
      cases h1
    · rw [if_neg hs] at h1
      rw [show ({ s with difficulty := d₁ } : GameState).gameOver
          = s.gameOver from rfl, h0] at h1
      cases h1

theorem rawStep_won_over (e : Event) (s : GameState)
    (ih : s.gameWon = true → s.gameOver = true)
    (h : (rawStep e s).gameWon = true) : (rawStep e s).gameOver = true := by
  cases e with
  | flip id =>
    rw [(rawStep_flip_scalars s id).1] at h
    rw [(rawStep_flip_scalars s id).2.1]
    exact ih h
  | tick =>
    rw [rawStep_tick_eq] at h ⊢
    rw [(timerTick_scalars s).1] at h
    by_cases hg : s.gameStarted = true ∧ s.gameOver = false
    · by_cases hle : s.timeLeft ≤ 1
      · rw [(timerTick_run s hg.1 hg.2).1 hle]
      · rw [(timerTick_run s hg.1 hg.2).2 hle]
        exact ih h
    · rw [timerTick_stop s hg]
      exact ih h
  | mismatchTimeout snap a b => exact ih h
  | hintTimeout => exact ih h
  | power t rand rPair rCard =>
    rw [rawStep_power_eq, (usePowerUp_scalars rand rPair rCard t s).1] at h
    rw [rawStep_power_eq, (usePowerUp_scalars rand rPair rCard t s).2.1]
    exact ih h
  | restart deck => cases h
  | startGame deck => cases h
  | menu => exact ih h
  | setDiff d₁ =>
    rw [rawStep_setDiff_eq] at h ⊢
    by_cases hs : s.gameStarted = true
    · rw [if_pos hs] at h ⊢
      exact ih h
    · rw [if_neg hs] at h ⊢
      exact ih h

theorem step_eq (e : Event) (s : GameState) :
    step e s = checkWin (applyResolve (rawStep e s)) := rfl

theorem reachable_pending {d : DifficultyLevel} {s : GameState} (hr : Reachable d s)
    (a b : Nat) (h : s.flippedCards = [a, b]) :
    (s.characters.getD a default).name ≠ (s.characters.getD b default).name := by
  cases hr with
  | init => cases h
  | next e hs =>
    rw [step_eq, (checkWin_fields _).1] at h
    rw [step_eq, (checkWin_fields _).2.1]
    exact applyResolve_pending _ a b h

theorem reachable_win_flag {d : DifficultyLevel} {s : GameState} (hr : Reachable d s) :
    s.gameStarted = true ∧ s.matchedPairs = s.difficulty.pairs → s.gameWon = true := by
  cases hr with
  | init =>
    intro hc
    cases hc.1
  | @next e s₀ hs =>
    intro hc
    rw [step_eq] at hc ⊢
    by_cases h : (applyResolve (rawStep e s₀)).gameStarted = true
        ∧ (applyResolve (rawStep e s₀)).matchedPairs
            = (applyResolve (rawStep e s₀)).difficulty.pairs
    · rw [checkWin_pos _ h]
    · rw [checkWin_neg _ h] at hc ⊢
      exact absurd hc h

theorem reachable_won_over {d : DifficultyLevel} {s : GameState} (hr : Reachable d s) :
    s.gameWon = true → s.gameOver = true := by
  induction hr with
  | init =>
    intro h
    cases h
  | @next e s₀ hs ih =>
    intro h
    rw [step_eq] at h ⊢
    by_cases hcw : (applyResolve (rawStep e s₀)).gameStarted = true
        ∧ (applyResolve (rawStep e s₀)).matchedPairs
            = (applyResolve (rawStep e s₀)).difficulty.pairs
    · rw [checkWin_pos _ hcw]
    · rw [checkWin_neg _ hcw] at h ⊢
      obtain ⟨_, _, hgo, hgw⟩ := applyResolve_scalars (rawStep e s₀)
      rw [hgw] at h
      rw [hgo]
      exact rawStep_won_over e s₀ ih h

theorem step_won_iff (e : Event) (s : GameState) (hwon : s.gameWon = false) :
    ((step e s).gameWon = true ↔
      ((step e s).gameStarted = true
        ∧ (step e s).matchedPairs = (step e s).difficulty.pairs)) := by
  rw [step_eq]
  have hyw : (applyResolve (rawStep e s)).gameWon = false := by
    rw [(applyResolve_scalars _).2.2.2]
    exact rawStep_gameWon_false e s hwon
  by_cases hc : (applyResolve (rawStep e s)).gameStarted = true
      ∧ (applyResolve (rawStep e s)).matchedPairs
          = (applyResolve (rawStep e s)).difficulty.pairs
  · rw [checkWin_pos _ hc]
    constructor
    · intro _
      exact ⟨hc.1, hc.2⟩
    · intro _
      rfl
  · rw [checkWin_neg _ hc]
    constructor
    · intro h
      rw [hyw] at h
      cases h
    · intro h
      exact absurd h hc

theorem step_lost_iff {d : DifficultyLevel} {s : GameState} (hr : Reachable d s)
    (e : Event) (hover : s.gameOver = false) :
    (((step e s).gameOver = true ∧ (step e s).gameWon = false) ↔
      (e = Event.tick ∧ s.gameStarted = true ∧ s.timeLeft ≤ 1)) := by
  have hwon : s.gameWon = false := by
    rcases hgw : s.gameWon with _ | _
    · rfl
    · rw [reachable_won_over hr hgw] at hover
      cases hover
  have hnotwin : ¬(s.gameStarted = true ∧ s.matchedPairs = s.difficulty.pairs) := by
    intro hc
    rw [reachable_win_flag hr hc] at hwon
    cases hwon
  constructor
  · rintro ⟨hgo, hgw⟩
    rw [step_eq] at hgo hgw
    rw [checkWin_won_of_not_fired _ hgw] at hgo
    have hro : (rawStep e s).gameOver = true := by
      rw [← (applyResolve_scalars (rawStep e s)).2.2.1]
      exact hgo
    exact rawStep_gameOver_new e s hover hro
  · rintro ⟨he, hstart, hle⟩
    subst he
    have hraw : rawStep Event.tick s = { s with timeLeft := 0, gameOver := true } := by
      rw [rawStep_tick_eq]
      exact (timerTick_run s hstart hover).1 hle
    rw [step_eq, hraw]
    have hid : applyResolve { s with timeLeft := 0, gameOver := true }
        = { s with timeLeft := 0, gameOver := true } := by
      apply applyResolve_id_of_no_pair
      intro a b hab
      exact reachable_pending hr a b hab
    rw [hid]
    have hnc : ¬(({ s with timeLeft := 0, gameOver := true } : GameState).gameStarted = true
        ∧ ({ s with timeLeft := 0, gameOver := true } : GameState).matchedPairs
            = ({ s with timeLeft := 0, gameOver := true } : GameState).difficulty.pairs) := by
      intro hc
      exact hnotwin ⟨hc.1, hc.2⟩
    rw [checkWin_neg _ hnc]
    exact ⟨rfl, hwon⟩

theorem checkWin_applyResolve_won (x : GameState)
    (hnp : ∀ a b, x.flippedCards = [a, b] →
      (x.characters.getD a default).name ≠ (x.characters.getD b default).name)
    (h : (checkWin (applyResolve x)).gameWon = true) :
    x.gameWon = true ∨ (x.gameStarted = true ∧ x.matchedPairs = x.difficulty.pairs) := by
  rw [applyResolve_id_of_no_pair x hnp] at h
  by_cases hc : x.gameStarted = true ∧ x.matchedPairs = x.difficulty.pairs
  · exact Or.inr hc
  · rw [checkWin_neg x hc] at h
    exact Or.inl h

theorem step_lost_persists {d : DifficultyLevel} {s : GameState} (hr : Reachable d s)
    (e : Event) (hover : s.gameOver = true) (hwon : s.gameWon = false)
    (h : (step e s).gameWon = true) :
    ∃ deck, e = Event.restart deck ∨ e = Event.startGame deck := by
  have hsfix : ∀ hx : (checkWin (applyResolve s)).gameWon = true, False := by
    intro hx
    rcases checkWin_applyResolve_won s (fun a b hab => reachable_pending hr a b hab) hx
        with hw | hc
    · rw [hw] at hwon
      cases hwon
    · rw [reachable_win_flag hr hc] at hwon
      cases hwon
  cases e with
  | restart deck => exact ⟨deck, Or.inl rfl⟩
  | startGame deck => exact ⟨deck, Or.inr rfl⟩
  | flip id =>
    exfalso
    rw [step_eq, rawStep_flip_of_gameOver s id hover] at h
    exact hsfix h
  | tick =>
    exfalso
    rw [step_eq, rawStep_tick_eq,
      timerTick_stop s (fun hc => by rw [hover] at hc; cases hc.2)] at h
    exact hsfix h
  | power t rand rPair rCard =>
    exfalso
    rw [step_eq, rawStep_power_eq, usePowerUp_of_gameOver rand rPair rCard t s hover] at h
    exact hsfix h
  | mismatchTimeout snap a b =>
    exfalso
    rw [step_eq, rawStep_mismatch_eq] at h
    rcases checkWin_applyResolve_won (mismatchFire snap a b s)
        (fun a₁ b₁ hab => absurd hab (by simp [mismatchFire])) h with hw | hc
    · rw [show (mismatchFire snap a b s).gameWon = s.gameWon from rfl, hwon] at hw
      cases hw
    · have hc₁ : s.gameStarted = true ∧ s.matchedPairs = s.difficulty.pairs := hc
      rw [reachable_win_flag hr hc₁] at hwon
      cases hwon
  | hintTimeout =>
    exfalso
    rw [step_eq, rawStep_hint_eq] at h
    rcases checkWin_applyResolve_won (hintFire s)
        (fun a₁ b₁ hab => reachable_pending hr a₁ b₁ hab) h with hw | hc
    · rw [show (hintFire s).gameWon = s.gameWon from rfl, hwon] at hw
      cases hw
    · have hc₁ : s.gameStarted = true ∧ s.matchedPairs = s.difficulty.pairs := hc
      rw [reachable_win_flag hr hc₁] at hwon
      cases hwon
  | menu =>
    exfalso
    rw [step_eq, rawStep_menu_eq] at h
    rcases checkWin_applyResolve_won { s with gameStarted := false }
        (fun a₁ b₁ hab => reachable_pending hr a₁ b₁ hab) h with hw | hc
    · rw [show ({ s with gameStarted := false } : GameState).gameWon
          = s.gameWon from rfl, hwon] at hw
      cases hw
    · cases hc.1
  | setDiff d₁ =>
    exfalso
    rw [step_eq, rawStep_setDiff_eq] at h
    by_cases hs : s.gameStarted = true
    · rw [if_pos hs] at h
      exact hsfix h
    · rw [if_neg hs] at h
      rcases checkWin_applyResolve_won { s with difficulty := d₁ }
          (fun a₁ b₁ hab => reachable_pending hr a₁ b₁ hab) h with hw | hc
      · rw [show ({ s with difficulty := d₁ } : GameState).gameWon
            = s.gameWon from rfl, hwon] at hw
        cases hw
      · exact hs hc.1

theorem step_won_persists (e : Event) (s : GameState) (hwon : s.gameWon = true) :
    (step e s).gameWon = true
    ∨ ∃ deck, e = Event.restart deck ∨ e = Event.startGame deck := by
  rcases rawStep_gameWon_true e s hwon with hx | hre
  · left
    rw [step_eq]
    have hy : (applyResolve (rawStep e s)).gameWon = true := by
      rw [(applyResolve_scalars _).2.2.2]
      exact hx
    by_cases hc : (applyResolve (rawStep e s)).gameStarted = true
        ∧ (applyResolve (rawStep e s)).matchedPairs
            = (applyResolve (rawStep e s)).difficulty.pairs
    · rw [checkWin_pos _ hc]
    · rw [checkWin_neg _ hc]
      exact hy
  · exact Or.inr hre

theorem timerTick_dec (s : GameState) (h1 : s.gameStarted = true)
    (h2 : s.gameOver = false) : (timerTick s).timeLeft = s.timeLeft - 1 := by
  by_cases hle : s.timeLeft ≤ 1
  · rw [(timerTick_run s h1 h2).1 hle]
    show (0 : Nat) = s.timeLeft - 1
    omega
  · rw [(timerTick_run s h1 h2).2 hle]

/-- Claim C3: within a session of the machine, the phase becomes `Won` (the
`gameWon` flag) exactly when `matchedPairs` equals `difficulty.pairs` in a
started game; it becomes `Lost` (`gameOver` without `gameWon`) exactly when a
clock tick fires in a running game with `timeLeft ≤ 1`, driving `timeLeft`
to 0; the two terminal outcomes are mutually exclusive — a lost session can
only turn won through an explicit restart, and a won session stays won until
a restart; while playing, each tick decrements `timeLeft` by exactly 1
(floored at 0), and a tick is a no-op once the game is over or not yet
started. -/
theorem c3_phase_transitions (d : DifficultyLevel) (s : GameState)
    (hr : Reachable d s) :
    (∀ e, s.gameWon = false →
      ((step e s).gameWon = true ↔
        ((step e s).gameStarted = true
          ∧ (step e s).matchedPairs = (step e s).difficulty.pairs)))
    ∧ (∀ e, s.gameOver = false →
        (((step e s).gameOver = true ∧ (step e s).gameWon = false) ↔
          (e = Event.tick ∧ s.gameStarted = true ∧ s.timeLeft ≤ 1)))
    ∧ (∀ e, s.gameOver = true → s.gameWon = false → (step e s).gameWon = true →
        ∃ deck, e = Event.restart deck ∨ e = Event.startGame deck)
    ∧ (∀ e, s.gameWon = true →
        ((step e s).gameWon = true
          ∨ ∃ deck, e = Event.restart deck ∨ e = Event.startGame deck))
    ∧ (s.gameStarted = true → s.gameOver = false →
        (timerTick s).timeLeft = s.timeLeft - 1)
    ∧ (¬(s.gameStarted = true ∧ s.gameOver = false) → timerTick s = s) :=
  ⟨fun e => step_won_iff e s,
   fun e => step_lost_iff hr e,
   fun e h1 h2 => step_lost_persists hr e h1 h2,
   fun e hw => step_won_persists e s hw,
   fun h1 h2 => timerTick_dec s h1 h2,
   fun h => timerTick_stop s h⟩

/-- Witness for C3: at the reachable initial menu state a tick changes
nothing (the countdown is not running). -/
theorem c3_phase_transitions_witness :
    timerTick (initialState dNormal) = initialState dNormal :=
  (c3_phase_transitions dNormal (initialState dNormal) Reachable.init).2.2.2.2.2
    (fun hc => absurd hc.1 (by decide))

/-! ## C10: stale callbacks across sessions -/

/-- Counterexample to C10: the pending mismatch callback of the lost old
session is not a no-op on the fresh session created by Play Again — when it
fires it overwrites the new deck with its stale snapshot, and applies the
time penalty to the new timer. -/
theorem c10_counterexample :
    mismatchFire sOld.characters 0 1 sNew ≠ sNew := by
  decide

/-- C10 amended: pending mismatch and hint timeouts carry no session or
epoch guard.  A stale mismatch callback firing on a restarted session always
applies its full effect — it sets `timeLeft = max 1 (timeLimit - 2)`, which
changes the fresh state whenever the time limit is at least 2; a stale hint
callback always clears the current `hintCard`, changing any state with an
active hint.  Only the countdown interval is actively cancelled: once
`gameOver` holds, a tick is a no-op. -/
theorem c10_stale_callbacks (s : GameState) (deck snap : List Character) (a b : Nat)
    (hlimit : 2 ≤ s.difficulty.timeLimit) :
    ((mismatchFire snap a b (initGame s deck)).timeLeft
        = max 1 (s.difficulty.timeLimit - 2)
      ∧ mismatchFire snap a b (initGame s deck) ≠ initGame s deck)
    ∧ (∀ s₁ : GameState, (hintFire s₁).hintCard = none
        ∧ (s₁.hintCard ≠ none → hintFire s₁ ≠ s₁))
    ∧ (∀ s₁ : GameState, s₁.gameOver = true → timerTick s₁ = s₁) := by
  refine ⟨⟨rfl, ?_⟩, ?_, ?_⟩
  · intro heq
    have hT := congrArg GameState.timeLeft heq
    rw [show (mismatchFire snap a b (initGame s deck)).timeLeft
        = max 1 (s.difficulty.timeLimit - 2) from rfl,
      show (initGame s deck).timeLeft = s.difficulty.timeLimit from rfl] at hT
    omega
  · intro s₁
    refine ⟨rfl, ?_⟩
    intro hne heq
    have hH := congrArg GameState.hintCard heq
    rw [show (hintFire s₁).hintCard = none from rfl] at hH
    exact hne hH.symm
  · intro s₁ hgo
    apply timerTick_stop
    intro hc
    rw [hgo] at hc
    cases hc.2

/-- Witness for C10: the stale callback firing on the concrete fresh session
sets its timer to `max 1 (60 - 2) = 58`. -/
theorem c10_stale_callbacks_witness :
    (mismatchFire sOld.characters 0 1 sNew).timeLeft
      = max 1 (sOld.difficulty.timeLimit - 2) :=
  (c10_stale_callbacks sOld [cardA, cardB, cardC] sOld.characters 0 1 (by decide)).1.1

end CardMatcher
